import Mathlib

/-!
Shallow embedding of the bird-blog Flask application (`src/app.py`).

The database is modelled as explicit lists of rows; each HTTP POST handler
becomes a pure function from its form inputs and the current application
state to a result holding the response, the flashed messages and the next
state.  The upload directory is a list of file names.  Python string
primitives used by the handlers (`str.strip`, `int(...)`,
`os.path.splitext`) are modelled directly; `werkzeug.secure_filename` and
the wall clock are abstract parameters of the handlers that use them.
-/

namespace BirdBlog

/-- The characters `str.strip()` removes (ASCII whitespace as in Python). -/
def isPySpace (c : Char) : Bool :=
  c = ' ' || c = '\t' || c = '\n' || c = '\r' || c = '\x0b' || c = '\x0c'

/-- `str.strip()` on a character list: drop leading and trailing whitespace. -/
def pyStripList (l : List Char) : List Char :=
  ((l.dropWhile isPySpace).reverse.dropWhile isPySpace).reverse

/-- Python `str.strip()` with no arguments. -/
def pyStrip (s : String) : String :=
  ⟨pyStripList s.data⟩

/-- Tail of a valid Python integer digit group: digits with single
underscores allowed between digits (`int("1_0") = 10`). -/
def digitsCore : List Char → Bool
  | [] => true
  | '_' :: c :: rest => c.isDigit && digitsCore rest
  | c :: rest => c.isDigit && digitsCore rest

/-- A valid Python integer digit group: nonempty, starts with a digit. -/
def digitsOk : List Char → Bool
  | [] => false
  | c :: rest => c.isDigit && digitsCore rest

/-- Numeric value of a digit group once underscores are removed. -/
def digitsVal (l : List Char) : Nat :=
  (l.filter (· ≠ '_')).foldl (fun a c => 10 * a + (c.toNat - '0'.toNat)) 0

/-- Python `int(s)` on a decimal string: strips surrounding whitespace,
allows one sign, digits with single underscores between them; `none`
models `ValueError`. -/
def pyInt (s : String) : Option Int :=
  match pyStripList s.data with
  | '+' :: rest => if digitsOk rest then some (digitsVal rest) else none
  | '-' :: rest => if digitsOk rest then some (-(digitsVal rest : Int)) else none
  | l => if digitsOk l then some (digitsVal l) else none

/-- `os.path.splitext` on a bare file name (no directory separators): the
extension starts at the last dot, provided some earlier character is not a
dot (so `.bashrc` has no extension). -/
def splitext (s : String) : String × String :=
  let rev := s.data.reverse
  let extRev := rev.takeWhile (· ≠ '.')
  if extRev.length = rev.length then (s, "")
  else
    let name := (rev.drop (extRev.length + 1)).reverse
    if name.any (· ≠ '.') then (⟨name⟩, ⟨'.' :: extRev.reverse⟩)
    else (s, "")

/-- The collision-avoiding rename in `new_post`:
`name_<timestamp><ext>` built with `os.path.splitext`. -/
def uniquify (filename tsStr : String) : String :=
  let p := splitext filename
  p.1 ++ "_" ++ tsStr ++ p.2

/-! ## Data model (`Species`, `Animal`, `User`, `Post`) -/

/-- A row of the `species` table. -/
structure SpeciesRow where
  id : Nat
  name : String
deriving Repr, DecidableEq

/-- A row of the `animal` table. -/
structure AnimalRow where
  id : Nat
  name : String
  species_id : Nat
deriving Repr, DecidableEq

/-- A row of the `user` table. -/
structure UserRow where
  id : Nat
  name : String
  bio : Option String
deriving Repr, DecidableEq

/-- A row of the `post` table (timestamps as abstract ticks). -/
structure PostRow where
  id : Nat
  caption : String
  animal_name : Option String
  notes : Option String
  image_filename : String
  timestamp : Nat
  species_id : Nat
  user_id : Option Nat
deriving Repr, DecidableEq

/-- The relational state plus the autoincrement counters. -/
structure DB where
  species : List SpeciesRow
  animals : List AnimalRow
  users : List UserRow
  posts : List PostRow
  nextSpeciesId : Nat
  nextAnimalId : Nat
  nextUserId : Nat
  nextPostId : Nat
deriving Repr, DecidableEq

/-- Application state: database plus the upload directory's file names. -/
structure AppState where
  db : DB
  fs : List String
deriving Repr, DecidableEq

/-- The freshly created database. -/
def emptyDB : DB :=
  ⟨[], [], [], [], 1, 1, 1, 1⟩

/-- State right after `init_db` on a fresh deployment. -/
def initState : AppState :=
  ⟨emptyDB, []⟩

/-! ## Responses and handler results -/

/-- What a handler returns to the client. -/
inductive Resp where
  | redirect (target : String)
  | render (tmpl : String)
  | notFound
  | serverError
deriving Repr, DecidableEq

/-- A handler's outcome: response, flashed messages, next state. -/
structure HResult where
  resp : Resp
  flash : List (String × String)
  state : AppState
deriving Repr, DecidableEq

/-- `url_for('index')`. -/
def url_for_index : String := "/"

/-- `url_for('login', next=path)`. -/
def url_for_login (next : Option String) : String :=
  "/login" ++ (match next with | some p => "?next=" ++ p | none => "")

/-- `url_for('species_profile', species_id=i)`. -/
def url_for_species_profile (i : Nat) : String :=
  "/species/" ++ toString i

/-- `url_for('new_species')`. -/
def url_for_new_species : String := "/species/new"

/-- `url_for('edit_species', species_id=i)`. -/
def url_for_edit_species (i : Nat) : String :=
  "/species/" ++ toString i ++ "/edit"

/-- `url_for('edit_animal', animal_id=i)`. -/
def url_for_edit_animal (i : Nat) : String :=
  "/animals/" ++ toString i ++ "/edit"

/-- `url_for('new_post')`. -/
def url_for_new_post : String := "/post/new"

/-- `url_for('users_list')`. -/
def url_for_users_list : String := "/users"

/-- `url_for('new_user')`. -/
def url_for_new_user : String := "/users/new"

/-! ## Session and the editor guard -/

/-- The session: the `editor_logged_in` key (absent, or a stored Boolean). -/
structure Session where
  editor_logged_in : Option Bool
deriving Repr, DecidableEq

/-- `is_editor_logged_in`: `session.get('editor_logged_in') is True`. -/
def is_editor_logged_in (s : Session) : Bool :=
  s.editor_logged_in = some true

/-- The `editor_required` decorator: an unauthenticated request is answered
with a flash and a redirect to the login page carrying the requested path;
otherwise the wrapped handler body runs. -/
def editor_required (sess : Session) (path : String) (st : AppState)
    (body : AppState → HResult) : HResult :=
  if is_editor_logged_in sess then body st
  else
    { resp := .redirect (url_for_login (some path)),
      flash := [("Please log in as editor to access that page.", "warning")],
      state := st }

/-- Result of the `login` handler: response, new session, flashes. -/
structure LoginResult where
  resp : Resp
  sess : Session
  flash : List (String × String)
deriving Repr, DecidableEq

/-- POST `/login`: the credential pair comes from the environment
(`EDITOR_USER`/`EDITOR_PASS`, here parameters); success sets the session
flag and redirects to the `next` query argument (falling back to the index
when it is absent or empty). -/
def login_post (editorUser editorPass username password : String)
    (next_arg : Option String) (sess : Session) : LoginResult :=
  let next_url :=
    match next_arg with
    | some s => if s = "" then url_for_index else s
    | none => url_for_index
  if username = editorUser ∧ password = editorPass then
    ⟨.redirect next_url, ⟨some true⟩, [("Logged in as editor.", "success")]⟩
  else
    ⟨.render "login.html", sess, [("Invalid credentials.", "danger")]⟩

/-! ## Mutating route handlers -/

/-- POST `/species/new` (handler body after the editor guard). -/
def new_species_post (form_name : String) (st : AppState) : HResult :=
  let name := pyStrip form_name
  if name = "" then
    ⟨.redirect url_for_new_species,
      [("Species name cannot be empty.", "warning")], st⟩
  else
    match st.db.species.find? (fun s => decide (s.name = name)) with
    | some existing =>
      ⟨.redirect (url_for_species_profile existing.id),
        [("Species already exists.", "info")], st⟩
    | none =>
      let sp : SpeciesRow := ⟨st.db.nextSpeciesId, name⟩
      ⟨.redirect (url_for_species_profile sp.id),
        [("Species \"" ++ name ++ "\" added.", "success")],
        { st with db := { st.db with
            species := st.db.species ++ [sp],
            nextSpeciesId := st.db.nextSpeciesId + 1 } }⟩

/-- POST `/species/<id>/edit` (handler body after the editor guard).
The code updates the name unconditionally, but the `name` column carries a
database-level unique constraint (`unique=True` on the `Species` model):
a commit that would duplicate another row's name raises `IntegrityError`
and the transaction is rolled back, which the embedding renders as a
server error with the state unchanged. -/
def edit_species_post (species_id : Nat) (form_name : String)
    (st : AppState) : HResult :=
  match st.db.species.find? (fun s => decide (s.id = species_id)) with
  | none => ⟨.notFound, [], st⟩
  | some sp =>
    let name := pyStrip form_name
    if name = "" then
      ⟨.redirect (url_for_edit_species sp.id),
        [("Species name cannot be empty.", "warning")], st⟩
    else if st.db.species.any (fun s => decide (s.id ≠ sp.id ∧ s.name = name)) then
      ⟨.serverError, [], st⟩
    else
      ⟨.redirect (url_for_species_profile sp.id),
        [("Species updated.", "success")],
        { st with db := { st.db with
            species := st.db.species.map
              (fun s => if s.id = sp.id then { s with name := name } else s) } }⟩

/-- POST `/animals/<id>/edit` (handler body after the editor guard).
There is no duplicate check and no database constraint on animal names:
the new name is committed unconditionally. -/
def edit_animal_post (animal_id : Nat) (form_name : String)
    (st : AppState) : HResult :=
  match st.db.animals.find? (fun a => decide (a.id = animal_id)) with
  | none => ⟨.notFound, [], st⟩
  | some a =>
    let name := pyStrip form_name
    if name = "" then
      ⟨.redirect (url_for_edit_animal a.id),
        [("Animal name cannot be empty.", "warning")], st⟩
    else
      ⟨.redirect (url_for_species_profile a.species_id),
        [("Animal updated.", "success")],
        { st with db := { st.db with
            animals := st.db.animals.map
              (fun x => if x.id = a.id then { x with name := name } else x) } }⟩

/-- POST `/species/<id>/animals/new` (handler body after the editor
guard): duplicate `(species_id, name)` pairs are refused at the
application level before the insert. -/
def create_animal_post (species_id : Nat) (form_name : String)
    (st : AppState) : HResult :=
  match st.db.species.find? (fun s => decide (s.id = species_id)) with
  | none => ⟨.notFound, [], st⟩
  | some sp =>
    let name := pyStrip form_name
    if name = "" then
      ⟨.redirect (url_for_species_profile sp.id),
        [("Animal name cannot be empty.", "warning")], st⟩
    else
      match st.db.animals.find?
          (fun a => decide (a.species_id = sp.id ∧ a.name = name)) with
      | some _ =>
        ⟨.redirect (url_for_species_profile sp.id),
          [("Animal already exists for this species.", "info")], st⟩
      | none =>
        let a : AnimalRow := ⟨st.db.nextAnimalId, name, sp.id⟩
        ⟨.redirect (url_for_species_profile sp.id),
          [("Animal \"" ++ name ++ "\" added to " ++ sp.name ++ ".", "success")],
          { st with db := { st.db with
              animals := st.db.animals ++ [a],
              nextAnimalId := st.db.nextAnimalId + 1 } }⟩

/-- POST `/users/new` (handler body after the editor guard). -/
def new_user_post (form_name form_bio : String) (st : AppState) : HResult :=
  let name := pyStrip form_name
  let bio : Option String :=
    if pyStrip form_bio = "" then none else some (pyStrip form_bio)
  if name = "" then
    ⟨.redirect url_for_new_user, [("Name is required", "warning")], st⟩
  else
    ⟨.redirect url_for_users_list, [("User created.", "success")],
      { st with db := { st.db with
          users := st.db.users ++ [⟨st.db.nextUserId, name, bio⟩],
          nextUserId := st.db.nextUserId + 1 } }⟩

/-- An uploaded file as werkzeug's `FileStorage` presents it. -/
structure FileUpload where
  filename : String
deriving Repr, DecidableEq

/-- Truthiness of `request.form.get(key)`: `None` and `''` are falsy. -/
def optTruthy : Option String → Bool
  | none => false
  | some s => s ≠ ""

/-- Truthiness of `request.files.get('image')`: a `FileStorage` is falsy
exactly when its filename is empty (werkzeug's `__bool__`). -/
def imageTruthy : Option FileUpload → Bool
  | none => false
  | some f => f.filename ≠ ""

/-- The form of POST `/post/new`; fields read with a `''` default are
plain strings, the rest are `Option`s. -/
structure NewPostForm where
  caption : String
  animal_name : String
  existing_animal : Option String
  notes : String
  species : Option String
  user_id : Option String
  image : Option FileUpload
deriving Repr, DecidableEq

/-- POST `/post/new` (handler body after the editor guard).
`secfn` stands for `werkzeug.secure_filename`; `tsStr` for the formatted
`datetime.utcnow()` used in the collision-avoiding rename; `now` for the
row's creation timestamp.  Notice the image is saved to the upload
directory before the optional user is validated. -/
def new_post_post (secfn : String → String) (tsStr : String) (now : Nat)
    (form : NewPostForm) (st : AppState) : HResult :=
  let caption := pyStrip form.caption
  let animal_name : Option String :=
    if pyStrip form.animal_name = "" then
      (if optTruthy form.existing_animal then form.existing_animal else none)
    else some (pyStrip form.animal_name)
  let notes : Option String :=
    if pyStrip form.notes = "" then none else some (pyStrip form.notes)
  if caption = "" ∨ ¬ optTruthy form.species ∨ ¬ imageTruthy form.image then
    ⟨.redirect url_for_new_post,
      [("Caption, species selection and image are required.", "warning")], st⟩
  else
    match pyInt ((form.species).getD "") with
    | none =>
      ⟨.redirect url_for_new_post, [("Invalid species selection.", "danger")], st⟩
    | some sidI =>
      match st.db.species.find? (fun s => decide ((s.id : Int) = sidI)) with
      | none =>
        ⟨.redirect url_for_new_post, [("Selected species not found.", "danger")], st⟩
      | some sp =>
        let fname0 := secfn (((form.image).map (·.filename)).getD "")
        if fname0 = "" then
          ⟨.redirect url_for_new_post, [("Invalid image filename.", "danger")], st⟩
        else
          let fname := uniquify fname0 tsStr
          let st1 : AppState := { st with fs := st.fs.insert fname }
          let mkPost : Option Nat → HResult := fun uid =>
            ⟨.redirect (url_for_species_profile sp.id),
              [("Post created.", "success")],
              { st1 with db := { st1.db with
                  posts := st1.db.posts ++
                    [⟨st1.db.nextPostId, caption, animal_name, notes, fname,
                      now, sp.id, uid⟩],
                  nextPostId := st1.db.nextPostId + 1 } }⟩
          if optTruthy form.user_id then
            match pyInt ((form.user_id).getD "") with
            | none =>
              ⟨.redirect url_for_new_post,
                [("Invalid user selection.", "warning")], st1⟩
            | some uI =>
              match st1.db.users.find? (fun u => decide ((u.id : Int) = uI)) with
              | none =>
                ⟨.redirect url_for_new_post,
                  [("Selected user not found.", "warning")], st1⟩
              | some u => mkPost (some u.id)
          else mkPost none

/-- The guarded best-effort file removal in the delete handlers:
`if post.image_filename: if os.path.exists(path): os.remove(path)` inside
`try/except`.  `failSet` holds the names whose `os.remove` raises; a
raised error is caught and logged, leaving the file in place. -/
def tryRemoveImage (fname : String) (failSet : List String)
    (st : AppState) : AppState :=
  if fname ≠ "" ∧ fname ∈ st.fs ∧ fname ∉ failSet then
    { st with fs := st.fs.filter (fun g => decide (g ≠ fname)) }
  else st

/-- POST `/post/<id>/delete` (handler body after the editor guard). -/
def delete_post_post (post_id : Nat) (failSet : List String)
    (st : AppState) : HResult :=
  match st.db.posts.find? (fun p => decide (p.id = post_id)) with
  | none => ⟨.notFound, [], st⟩
  | some post =>
    let st1 := tryRemoveImage post.image_filename failSet st
    ⟨.redirect url_for_index, [("Post deleted.", "info")],
      { st1 with db := { st1.db with
          posts := st1.db.posts.filter (fun p => decide (p.id ≠ post.id)) } }⟩

/-- POST `/species/<id>/delete` (handler body after the editor guard):
every post of the species has its image removed best-effort and is marked
deleted, then the species row itself, and the commit runs.  The handler
never touches the species' Animal rows; `Animal.species_id` is `NOT NULL`
and the `Species.animals` relationship has the default cascade, which
nullifies the children's foreign key when the parent is deleted — so when
the species has at least one animal the commit raises `IntegrityError`
and the transaction rolls back: no row is deleted and the request ends in
a server error, though the image files have already been unlinked by
`os.remove` before the commit. -/
def delete_species_post (species_id : Nat) (failSet : List String)
    (st : AppState) : HResult :=
  match st.db.species.find? (fun s => decide (s.id = species_id)) with
  | none => ⟨.notFound, [], st⟩
  | some sp =>
    let posts := st.db.posts.filter (fun p => decide (p.species_id = sp.id))
    let st1 := posts.foldl
      (fun acc p => tryRemoveImage p.image_filename failSet acc) st
    if st.db.animals.any (fun a => decide (a.species_id = sp.id)) then
      ⟨.serverError, [], st1⟩
    else
      ⟨.redirect url_for_index, [("Species and its posts were deleted.", "info")],
        { st1 with db := { st1.db with
            posts := st1.db.posts.filter (fun p => decide (p.species_id ≠ sp.id)),
            species := st1.db.species.filter (fun s => decide (s.id ≠ sp.id)) } }⟩

/-- GET `/`: the handler's post query.  `ORDER BY timestamp DESC LIMIT 50`
is rendered as an insertion sort on descending timestamps followed by
`take 50`; a present non-empty `species_id` query argument filters by the
parsed id when `int(...)` succeeds and is ignored otherwise. -/
def insertDesc (p : PostRow) : List PostRow → List PostRow
  | [] => [p]
  | q :: rest =>
    if p.timestamp ≤ q.timestamp then q :: insertDesc p rest
    else p :: q :: rest

/-- Sort posts by descending timestamp (insertion sort). -/
def sortByTimestampDesc : List PostRow → List PostRow
  | [] => []
  | p :: rest => insertDesc p (sortByTimestampDesc rest)

/-- Posts shown by GET `/` for a given `species_id` query argument. -/
def index_posts (species_filter : Option String) (st : AppState) :
    List PostRow :=
  let newest50 := (sortByTimestampDesc st.db.posts).take 50
  match species_filter with
  | some sf =>
    if sf = "" then newest50
    else
      match pyInt sf with
      | some sid =>
        (sortByTimestampDesc
          (st.db.posts.filter (fun p => decide ((p.species_id : Int) = sid)))).take 50
      | none => newest50
  | none => newest50

/-! ## Reachable states -/

/-- States reachable from a fresh deployment through the mutating
handlers (each applied with arbitrary editor-submitted inputs). -/
inductive Reachable : AppState → Prop where
  | init : Reachable initState
  | step_new_species (n : String) {st : AppState} :
      Reachable st → Reachable (new_species_post n st).state
  | step_edit_species (i : Nat) (n : String) {st : AppState} :
      Reachable st → Reachable (edit_species_post i n st).state
  | step_edit_animal (i : Nat) (n : String) {st : AppState} :
      Reachable st → Reachable (edit_animal_post i n st).state
  | step_create_animal (i : Nat) (n : String) {st : AppState} :
      Reachable st → Reachable (create_animal_post i n st).state
  | step_new_user (n b : String) {st : AppState} :
      Reachable st → Reachable (new_user_post n b st).state
  | step_new_post (secfn : String → String) (tsStr : String) (now : Nat)
      (form : NewPostForm) {st : AppState} :
      Reachable st → Reachable (new_post_post secfn tsStr now form st).state
  | step_delete_post (i : Nat) (failSet : List String) {st : AppState} :
      Reachable st → Reachable (delete_post_post i failSet st).state
  | step_delete_species (i : Nat) (failSet : List String) {st : AppState} :
      Reachable st → Reachable (delete_species_post i failSet st).state

/-- Application-level uniqueness of `(species_id, name)` on animals. -/
def animalUnique (st : AppState) : Prop :=
  ∀ a1 ∈ st.db.animals, ∀ a2 ∈ st.db.animals,
    a1.species_id = a2.species_id → a1.name = a2.name → a1.id = a2.id

/-- Global uniqueness of species names. -/
def speciesUnique (st : AppState) : Prop :=
  ∀ s1 ∈ st.db.species, ∀ s2 ∈ st.db.species,
    s1.name = s2.name → s1.id = s2.id

/-- One stored name is non-empty and already stripped. -/
def nameOk (n : String) : Prop :=
  n ≠ "" ∧ pyStrip n = n

/-- Every stored species, animal and user name is non-empty and equal to
its stripped form. -/
def namesOk (st : AppState) : Prop :=
  (∀ s ∈ st.db.species, nameOk s.name) ∧
  (∀ a ∈ st.db.animals, nameOk a.name) ∧
  (∀ u ∈ st.db.users, nameOk u.name)

instance (st : AppState) : Decidable (animalUnique st) := by
  unfold animalUnique; infer_instance

instance (st : AppState) : Decidable (speciesUnique st) := by
  unfold speciesUnique; infer_instance

instance (n : String) : Decidable (nameOk n) := by
  unfold nameOk; infer_instance

instance (st : AppState) : Decidable (namesOk st) := by
  unfold namesOk; infer_instance

/-! ## Facts about the string primitives -/

theorem pyStripList_eq (l : List Char) :
    pyStripList l = (l.dropWhile isPySpace).rdropWhile isPySpace := rfl

theorem pyStripList_idem (l : List Char) :
    pyStripList (pyStripList l) = pyStripList l := by
  rw [pyStripList_eq, pyStripList_eq]
  have h1 : ((l.dropWhile isPySpace).rdropWhile isPySpace).dropWhile isPySpace
      = (l.dropWhile isPySpace).rdropWhile isPySpace := by
    rw [List.dropWhile_eq_self_iff]
    intro hl
    have hpre := List.rdropWhile_prefix isPySpace (l.dropWhile isPySpace)
    have hlen : 0 < (l.dropWhile isPySpace).length :=
      lt_of_lt_of_le hl hpre.length_le
    have hg := hpre.getElem (n := 0) hl
    have hz := List.dropWhile_get_zero_not isPySpace l hlen
    simpa [List.get_eq_getElem, hg] using hz
  rw [h1, List.rdropWhile_idempotent]

theorem pyStrip_idem (s : String) : pyStrip (pyStrip s) = pyStrip s :=
  congrArg String.mk (pyStripList_idem s.data)

theorem nameOk_pyStrip {s : String} (h : pyStrip s ≠ "") : nameOk (pyStrip s) :=
  ⟨h, pyStrip_idem s⟩

/-! ## Facts about the index query's sort -/

theorem mem_insertDesc {x p : PostRow} {l : List PostRow} :
    x ∈ insertDesc p l ↔ x = p ∨ x ∈ l := by
  induction l with
  | nil => simp [insertDesc]
  | cons q rest ih =>
    unfold insertDesc
    by_cases h : p.timestamp ≤ q.timestamp
    · simp only [h, if_true, List.mem_cons, ih]
      tauto
    · simp [h]

theorem sorted_insertDesc {p : PostRow} {l : List PostRow}
    (h : l.Sorted (fun a b => b.timestamp ≤ a.timestamp)) :
    (insertDesc p l).Sorted (fun a b => b.timestamp ≤ a.timestamp) := by
  induction l with
  | nil => simp [insertDesc]
  | cons q rest ih =>
    rw [List.sorted_cons] at h
    unfold insertDesc
    by_cases hc : p.timestamp ≤ q.timestamp
    · rw [if_pos hc, List.sorted_cons]
      refine ⟨?_, ih h.2⟩
      intro x hx
      rcases mem_insertDesc.mp hx with rfl | hx
      · exact hc
      · exact h.1 x hx
    · rw [if_neg hc, List.sorted_cons]
      refine ⟨?_, List.sorted_cons.mpr h⟩
      intro x hx
      rcases List.mem_cons.mp hx with rfl | hx
      · omega
      · have := h.1 x hx; omega

theorem mem_sortByTimestampDesc {x : PostRow} {l : List PostRow} :
    x ∈ sortByTimestampDesc l ↔ x ∈ l := by
  induction l with
  | nil => simp [sortByTimestampDesc]
  | cons q rest ih => simp [sortByTimestampDesc, mem_insertDesc, ih]

theorem length_insertDesc (p : PostRow) (l : List PostRow) :
    (insertDesc p l).length = l.length + 1 := by
  induction l with
  | nil => simp [insertDesc]
  | cons q rest ih =>
    unfold insertDesc
    by_cases h : p.timestamp ≤ q.timestamp <;> simp [h, ih]

theorem length_sortByTimestampDesc (l : List PostRow) :
    (sortByTimestampDesc l).length = l.length := by
  induction l with
  | nil => rfl
  | cons q rest ih => simp [sortByTimestampDesc, length_insertDesc, ih]

theorem sorted_sortByTimestampDesc (l : List PostRow) :
    (sortByTimestampDesc l).Sorted (fun a b => b.timestamp ≤ a.timestamp) := by
  induction l with
  | nil => simp [sortByTimestampDesc]
  | cons q rest ih => exact sorted_insertDesc ih

/-! ## Facts about the best-effort file removal -/

theorem tryRemoveImage_db (fname : String) (failSet : List String)
    (st : AppState) : (tryRemoveImage fname failSet st).db = st.db := by
  unfold tryRemoveImage; split <;> rfl

theorem tryRemoveImage_fs_subset (fname : String) (failSet : List String)
    (st : AppState) {x : String} :
    x ∈ (tryRemoveImage fname failSet st).fs → x ∈ st.fs := by
  unfold tryRemoveImage; split
  · intro hx; exact (List.mem_filter.mp hx).1
  · exact id

theorem tryRemoveImage_not_mem (fname : String) (st : AppState)
    (hne : fname ≠ "") : fname ∉ (tryRemoveImage fname [] st).fs := by
  unfold tryRemoveImage
  by_cases hin : fname ∈ st.fs
  · rw [if_pos ⟨hne, hin, List.not_mem_nil fname⟩]
    intro hmem
    have := (List.mem_filter.mp hmem).2
    simp at this
  · rw [if_neg (by tauto)]
    exact hin

theorem foldl_tryRemoveImage_db (ps : List PostRow) (failSet : List String)
    (st : AppState) :
    (ps.foldl (fun acc p => tryRemoveImage p.image_filename failSet acc) st).db
      = st.db := by
  induction ps generalizing st with
  | nil => rfl
  | cons p rest ih => rw [List.foldl_cons, ih, tryRemoveImage_db]

theorem foldl_tryRemoveImage_fs_subset (ps : List PostRow)
    (failSet : List String) (st : AppState) {x : String} :
    x ∈ (ps.foldl (fun acc p => tryRemoveImage p.image_filename failSet acc) st).fs →
      x ∈ st.fs := by
  induction ps generalizing st with
  | nil => exact id
  | cons p rest ih =>
    rw [List.foldl_cons]
    exact fun hx => tryRemoveImage_fs_subset _ _ _ (ih _ hx)

theorem foldl_tryRemoveImage_not_mem (ps : List PostRow) (st : AppState)
    {p : PostRow} (hp : p ∈ ps) (hne : p.image_filename ≠ "") :
    p.image_filename ∉
      (ps.foldl (fun acc q => tryRemoveImage q.image_filename [] acc) st).fs := by
  induction ps generalizing st with
  | nil => cases hp
  | cons q rest ih =>
    rw [List.foldl_cons]
    rcases List.mem_cons.mp hp with rfl | hp
    · intro hmem
      exact tryRemoveImage_not_mem p.image_filename st hne
        (foldl_tryRemoveImage_fs_subset rest [] _ hmem)
    · exact ih _ hp

/-! ## Frame facts: which tables each handler leaves untouched -/

theorem new_post_post_frame (secfn : String → String) (tsStr : String)
    (now : Nat) (form : NewPostForm) (st : AppState) :
    (new_post_post secfn tsStr now form st).state.db.species = st.db.species ∧
    (new_post_post secfn tsStr now form st).state.db.animals = st.db.animals ∧
    (new_post_post secfn tsStr now form st).state.db.users = st.db.users := by
  unfold new_post_post
  by_cases hc :
      pyStrip form.caption = "" ∨ ¬ optTruthy form.species ∨ ¬ imageTruthy form.image
  · rw [if_pos hc]; exact ⟨rfl, rfl, rfl⟩
  · rw [if_neg hc]
    dsimp only
    repeat' split
    all_goals exact ⟨rfl, rfl, rfl⟩

theorem delete_post_post_frame (i : Nat) (failSet : List String)
    (st : AppState) :
    (delete_post_post i failSet st).state.db.species = st.db.species ∧
    (delete_post_post i failSet st).state.db.animals = st.db.animals ∧
    (delete_post_post i failSet st).state.db.users = st.db.users := by
  unfold delete_post_post
  split
  · simp
  · simp [tryRemoveImage_db]

theorem delete_species_post_frame (i : Nat) (failSet : List String)
    (st : AppState) :
    (delete_species_post i failSet st).state.db.animals = st.db.animals ∧
    (delete_species_post i failSet st).state.db.users = st.db.users := by
  unfold delete_species_post
  split
  · simp
  · dsimp only
    split
    · simp [foldl_tryRemoveImage_db]
    · simp [foldl_tryRemoveImage_db]

/-! ## The reachable-state invariant -/

/-- The invariant every mutating handler preserves: species names are
globally unique, and all stored names are non-empty and stripped. -/
def Inv (st : AppState) : Prop :=
  speciesUnique st ∧ namesOk st

theorem inv_new_species (n : String) (st : AppState) (h : Inv st) :
    Inv (new_species_post n st).state := by
  obtain ⟨hu, hns, hna, hnu⟩ := h
  unfold new_species_post
  by_cases h0 : pyStrip n = ""
  · rw [if_pos h0]; exact ⟨hu, hns, hna, hnu⟩
  · rw [if_neg h0]
    dsimp only
    cases hf : st.db.species.find? (fun s => decide (s.name = pyStrip n)) with
    | none =>
      have hnone : ∀ x ∈ st.db.species, x.name ≠ pyStrip n := by
        intro x hx
        have := List.find?_eq_none.mp hf x hx
        simpa using this
      refine ⟨?_, ?_, hna, hnu⟩
      · intro s1 hs1 s2 hs2 hname
        simp only [List.mem_append, List.mem_singleton] at hs1 hs2
        rcases hs1 with hs1 | rfl <;> rcases hs2 with hs2 | rfl
        · exact hu s1 hs1 s2 hs2 hname
        · exact absurd hname (hnone s1 hs1)
        · exact absurd hname.symm (hnone s2 hs2)
        · rfl
      · intro s hs
        simp only [List.mem_append, List.mem_singleton] at hs
        rcases hs with hs | rfl
        · exact hns s hs
        · exact nameOk_pyStrip h0
    | some e => exact ⟨hu, hns, hna, hnu⟩

theorem inv_edit_species (i : Nat) (n : String) (st : AppState) (h : Inv st) :
    Inv (edit_species_post i n st).state := by
  obtain ⟨hu, hns, hna, hnu⟩ := h
  unfold edit_species_post
  cases hf : st.db.species.find? (fun s => decide (s.id = i)) with
  | none => exact ⟨hu, hns, hna, hnu⟩
  | some sp =>
    dsimp only
    by_cases h0 : pyStrip n = ""
    · rw [if_pos h0]; exact ⟨hu, hns, hna, hnu⟩
    · rw [if_neg h0]
      by_cases hcol :
          st.db.species.any (fun s => decide (s.id ≠ sp.id ∧ s.name = pyStrip n)) = true
      · rw [if_pos hcol]; exact ⟨hu, hns, hna, hnu⟩
      · rw [if_neg hcol]
        have hnc : ∀ x ∈ st.db.species, x.id ≠ sp.id → x.name ≠ pyStrip n := by
          intro x hx hid hnm
          exact hcol (List.any_eq_true.mpr ⟨x, hx, by simp [hid, hnm]⟩)
        refine ⟨?_, ?_, hna, hnu⟩
        · intro s1 hs1 s2 hs2 hname
          simp only [List.mem_map] at hs1 hs2
          obtain ⟨x1, hx1, rfl⟩ := hs1
          obtain ⟨x2, hx2, rfl⟩ := hs2
          by_cases h1 : x1.id = sp.id <;> by_cases h2 : x2.id = sp.id
          · simp [h1, h2]
          · rw [if_pos h1, if_neg h2] at hname ⊢
            exact absurd hname.symm (hnc x2 hx2 h2)
          · rw [if_neg h1, if_pos h2] at hname ⊢
            exact absurd hname (hnc x1 hx1 h1)
          · rw [if_neg h1, if_neg h2] at hname ⊢
            exact hu x1 hx1 x2 hx2 hname
        · intro s hs
          simp only [List.mem_map] at hs
          obtain ⟨x, hx, rfl⟩ := hs
          by_cases h1 : x.id = sp.id
          · rw [if_pos h1]; exact nameOk_pyStrip h0
          · rw [if_neg h1]; exact hns x hx

theorem inv_edit_animal (i : Nat) (n : String) (st : AppState) (h : Inv st) :
    Inv (edit_animal_post i n st).state := by
  obtain ⟨hu, hns, hna, hnu⟩ := h
  unfold edit_animal_post
  cases hf : st.db.animals.find? (fun a => decide (a.id = i)) with
  | none => exact ⟨hu, hns, hna, hnu⟩
  | some a =>
    dsimp only
    by_cases h0 : pyStrip n = ""
    · rw [if_pos h0]; exact ⟨hu, hns, hna, hnu⟩
    · rw [if_neg h0]
      refine ⟨hu, hns, ?_, hnu⟩
      intro x hx
      simp only [List.mem_map] at hx
      obtain ⟨y, hy, rfl⟩ := hx
      by_cases h1 : y.id = a.id
      · rw [if_pos h1]; exact nameOk_pyStrip h0
      · rw [if_neg h1]; exact hna y hy

theorem inv_create_animal (i : Nat) (n : String) (st : AppState) (h : Inv st) :
    Inv (create_animal_post i n st).state := by
  obtain ⟨hu, hns, hna, hnu⟩ := h
  unfold create_animal_post
  cases hf : st.db.species.find? (fun s => decide (s.id = i)) with
  | none => exact ⟨hu, hns, hna, hnu⟩
  | some sp =>
    dsimp only
    by_cases h0 : pyStrip n = ""
    · rw [if_pos h0]; exact ⟨hu, hns, hna, hnu⟩
    · rw [if_neg h0]
      cases hg : st.db.animals.find?
          (fun a => decide (a.species_id = sp.id ∧ a.name = pyStrip n)) with
      | some e => exact ⟨hu, hns, hna, hnu⟩
      | none =>
        refine ⟨hu, hns, ?_, hnu⟩
        intro x hx
        simp only [List.mem_append, List.mem_singleton] at hx
        rcases hx with hx | rfl
        · exact hna x hx
        · exact nameOk_pyStrip h0

theorem inv_new_user (n b : String) (st : AppState) (h : Inv st) :
    Inv (new_user_post n b st).state := by
  obtain ⟨hu, hns, hna, hnu⟩ := h
  unfold new_user_post
  dsimp only
  by_cases h0 : pyStrip n = ""
  · rw [if_pos h0]; exact ⟨hu, hns, hna, hnu⟩
  · rw [if_neg h0]
    refine ⟨hu, hns, hna, ?_⟩
    intro x hx
    simp only [List.mem_append, List.mem_singleton] at hx
    rcases hx with hx | rfl
    · exact hnu x hx
    · exact nameOk_pyStrip h0

theorem inv_of_frame {st st2 : AppState}
    (hsp : st2.db.species = st.db.species)
    (han : st2.db.animals = st.db.animals)
    (hus : st2.db.users = st.db.users) (h : Inv st) : Inv st2 := by
  simp only [Inv, speciesUnique, namesOk, hsp, han, hus]
  exact h

theorem inv_new_post (secfn : String → String) (tsStr : String) (now : Nat)
    (form : NewPostForm) (st : AppState) (h : Inv st) :
    Inv (new_post_post secfn tsStr now form st).state := by
  obtain ⟨h1, h2, h3⟩ := new_post_post_frame secfn tsStr now form st
  exact inv_of_frame h1 h2 h3 h

theorem inv_delete_post (i : Nat) (failSet : List String) (st : AppState)
    (h : Inv st) : Inv (delete_post_post i failSet st).state := by
  obtain ⟨h1, h2, h3⟩ := delete_post_post_frame i failSet st
  exact inv_of_frame h1 h2 h3 h

theorem inv_delete_species (i : Nat) (failSet : List String) (st : AppState)
    (h : Inv st) : Inv (delete_species_post i failSet st).state := by
  obtain ⟨hu, hns, hna, hnu⟩ := h
  unfold delete_species_post
  cases hf : st.db.species.find? (fun s => decide (s.id = i)) with
  | none => exact ⟨hu, hns, hna, hnu⟩
  | some sp =>
    dsimp only
    have hdb := foldl_tryRemoveImage_db
      (st.db.posts.filter (fun p => decide (p.species_id = sp.id))) failSet st
    by_cases hany :
        st.db.animals.any (fun a => decide (a.species_id = sp.id)) = true
    · rw [if_pos hany]
      exact inv_of_frame (by rw [hdb]) (by rw [hdb]) (by rw [hdb])
        ⟨hu, hns, hna, hnu⟩
    · rw [if_neg hany]
      refine ⟨?_, ?_, ?_, ?_⟩
      · intro s1 hs1 s2 hs2 hname
        rw [hdb] at hs1 hs2
        exact hu s1 (List.mem_of_mem_filter hs1) s2 (List.mem_of_mem_filter hs2) hname
      · intro s hs
        rw [hdb] at hs
        exact hns s (List.mem_of_mem_filter hs)
      · intro a ha
        rw [hdb] at ha
        exact hna a ha
      · intro u huu
        rw [hdb] at huu
        exact hnu u huu

theorem reachable_inv {st : AppState} (h : Reachable st) : Inv st := by
  induction h with
  | init =>
    refine ⟨?_, ?_, ?_, ?_⟩ <;> intro x hx <;> cases hx
  | step_new_species n _ ih => exact inv_new_species n _ ih
  | step_edit_species i n _ ih => exact inv_edit_species i n _ ih
  | step_edit_animal i n _ ih => exact inv_edit_animal i n _ ih
  | step_create_animal i n _ ih => exact inv_create_animal i n _ ih
  | step_new_user n b _ ih => exact inv_new_user n b _ ih
  | step_new_post secfn tsStr now form _ ih =>
    exact inv_new_post secfn tsStr now form _ ih
  | step_delete_post i failSet _ ih => exact inv_delete_post i failSet _ ih
  | step_delete_species i failSet _ ih => exact inv_delete_species i failSet _ ih

/-! ## Claim C1 -/

/-- The reachable state exhibiting an animal-uniqueness violation: one
species, two animals created as "A" and "B", then the second renamed to
"A" through the edit route. -/
def c1_badState : AppState :=
  (edit_animal_post 2 " A "
    (create_animal_post 1 "B"
      (create_animal_post 1 "A"
        (new_species_post "Sparrow" initState).state).state).state).state

/-- C1, counterexample: a database state reachable through the handlers in
which two Animal rows share the same `(species_id, name)` pair — the
`edit_animal` route renames an animal without any duplicate check, so the
claimed invariant is not maintained by every mutating operation. -/
theorem c1_counterexample : Reachable c1_badState ∧ ¬ animalUnique c1_badState :=
  ⟨Reachable.step_edit_animal 2 " A "
      (Reachable.step_create_animal 1 "B"
        (Reachable.step_create_animal 1 "A"
          (Reachable.step_new_species "Sparrow" Reachable.init))),
    by decide⟩

/-- C1, amended: `create_animal` does preserve uniqueness of
`(species_id, name)` — it refuses to insert when an animal of that species
with that name already exists — but `edit_animal` does not. -/
theorem c1_theorem (i : Nat) (n : String) (st : AppState)
    (h : animalUnique st) : animalUnique (create_animal_post i n st).state := by
  unfold create_animal_post
  cases hf : st.db.species.find? (fun s => decide (s.id = i)) with
  | none => exact h
  | some sp =>
    dsimp only
    by_cases h0 : pyStrip n = ""
    · rw [if_pos h0]; exact h
    · rw [if_neg h0]
      cases hg : st.db.animals.find?
          (fun a => decide (a.species_id = sp.id ∧ a.name = pyStrip n)) with
      | some e => exact h
      | none =>
        have hnone : ∀ a ∈ st.db.animals,
            ¬ (a.species_id = sp.id ∧ a.name = pyStrip n) := by
          intro a ha
          have := List.find?_eq_none.mp hg a ha
          simpa using this
        intro a1 ha1 a2 ha2 hsp hnm
        simp only [List.mem_append, List.mem_singleton] at ha1 ha2
        rcases ha1 with ha1 | rfl <;> rcases ha2 with ha2 | rfl
        · exact h a1 ha1 a2 ha2 hsp hnm
        · exact absurd ⟨hsp, hnm⟩ (hnone a1 ha1)
        · exact absurd ⟨hsp.symm, hnm.symm⟩ (hnone a2 ha2)
        · rfl

/-- C1, witness for the amended theorem at a concrete input. -/
theorem c1_witness :
    animalUnique (create_animal_post 1 "A"
      (new_species_post "Sparrow" initState).state).state :=
  c1_theorem 1 "A" (new_species_post "Sparrow" initState).state (by decide)

/-! ## Claim C2 -/

/-- C2: in every reachable database state the species names are globally
unique; every handler that creates or edits a Species preserves this
(`new_species` checks at the application level, `edit_species` is backed
by the column's database-level unique constraint). -/
theorem c2_theorem (st : AppState) (h : Reachable st) : speciesUnique st :=
  (reachable_inv h).1

/-- C2, witness: the invariant at a concrete reachable state. -/
theorem c2_witness :
    speciesUnique (new_species_post " Sparrow " initState).state :=
  c2_theorem (new_species_post " Sparrow " initState).state
    (Reachable.step_new_species " Sparrow " Reachable.init)

/-! ## Claim C3 -/

/-- C3: a POST to `/post/new` whose caption strips to empty, or with no
species selected, or with no image supplied, is answered by the required-
fields flash and a redirect back to the form, and the state (in
particular the Post table) is unchanged. -/
theorem c3_theorem (secfn : String → String) (tsStr : String) (now : Nat)
    (form : NewPostForm) (st : AppState)
    (h : pyStrip form.caption = "" ∨ ¬ optTruthy form.species ∨
      ¬ imageTruthy form.image) :
    (new_post_post secfn tsStr now form st).resp = .redirect url_for_new_post ∧
    (new_post_post secfn tsStr now form st).flash =
      [("Caption, species selection and image are required.", "warning")] ∧
    (new_post_post secfn tsStr now form st).state = st := by
  unfold new_post_post
  rw [if_pos h]
  exact ⟨rfl, rfl, rfl⟩

/-- The form of C3's witness: a blank caption, no species, no image. -/
def c3_form : NewPostForm :=
  ⟨" ", "", none, "", none, none, none⟩

/-- C3, witness at a concrete input. -/
theorem c3_witness :
    (new_post_post id "ts" 0 c3_form initState).resp = .redirect url_for_new_post ∧
    (new_post_post id "ts" 0 c3_form initState).flash =
      [("Caption, species selection and image are required.", "warning")] ∧
    (new_post_post id "ts" 0 c3_form initState).state = initState :=
  c3_theorem id "ts" 0 c3_form initState (by decide)

/-! ## Claim C4 -/

/-- C4: a POST to `/species/new` whose stripped name matches an existing
species redirects to that species' profile page and leaves the state (in
particular the Species table) unchanged. -/
theorem c4_theorem (st : AppState) (h : Reachable st) (n : String)
    (sp : SpeciesRow) (hsp : sp ∈ st.db.species)
    (hname : pyStrip n = sp.name) :
    (new_species_post n st).resp = .redirect (url_for_species_profile sp.id) ∧
    (new_species_post n st).state = st := by
  obtain ⟨hu, hns, _, _⟩ := reachable_inv h
  have h0 : pyStrip n ≠ "" := by rw [hname]; exact (hns sp hsp).1
  unfold new_species_post
  rw [if_neg h0]
  dsimp only
  cases hf : st.db.species.find? (fun s => decide (s.name = pyStrip n)) with
  | none =>
    exfalso
    have := List.find?_eq_none.mp hf sp hsp
    simp [hname] at this
  | some e =>
    have he := List.find?_some hf
    have hmem := List.mem_of_find?_eq_some hf
    simp only [decide_eq_true_eq] at he
    have hid : e.id = sp.id := hu e hmem sp hsp (by rw [he, hname])
    dsimp only
    exact ⟨by rw [hid], rfl⟩

/-- C4, witness at a concrete reachable state. -/
theorem c4_witness :
    (new_species_post " Sparrow " (new_species_post "Sparrow" initState).state).resp
        = .redirect (url_for_species_profile 1) ∧
    (new_species_post " Sparrow " (new_species_post "Sparrow" initState).state).state
        = (new_species_post "Sparrow" initState).state :=
  c4_theorem (new_species_post "Sparrow" initState).state
    (Reachable.step_new_species "Sparrow" Reachable.init)
    " Sparrow " ⟨1, "Sparrow"⟩ (by decide) (by decide)

/-! ## Claim C5 -/

/-- A reachable state whose species 1 owns an animal and a post with a
stored image file, built through the handlers from a fresh deployment. -/
def speciesWithAnimalState : AppState :=
  (new_post_post id "20240101120000" 10
    ⟨"cap", "", none, "", some "1", none, some ⟨"bird.jpg"⟩⟩
    (create_animal_post 1 "Tweety"
      (new_species_post "Sparrow" initState).state).state).state

/-- C5, counterexample: on a reachable state whose species owns an Animal
row, `delete_species` deletes nothing — the handler never touches the
species' animals, so the delete nullifies `Animal.species_id`, a
`NOT NULL` column, and the commit raises `IntegrityError` and rolls back.
The species row survives and a post referencing it remains, against the
claim. -/
theorem c5_counterexample :
    Reachable speciesWithAnimalState ∧
    (delete_species_post 1 [] speciesWithAnimalState).resp = .serverError ∧
    (delete_species_post 1 [] speciesWithAnimalState).state.db.species
        = speciesWithAnimalState.db.species ∧
    (delete_species_post 1 [] speciesWithAnimalState).state.db.posts
        = speciesWithAnimalState.db.posts ∧
    ∃ p ∈ (delete_species_post 1 [] speciesWithAnimalState).state.db.posts,
      p.species_id = 1 :=
  ⟨Reachable.step_new_post id "20240101120000" 10
      ⟨"cap", "", none, "", some "1", none, some ⟨"bird.jpg"⟩⟩
      (Reachable.step_create_animal 1 "Tweety"
        (Reachable.step_new_species "Sparrow" Reachable.init)),
    by decide, by decide, by decide, by decide⟩

/-- C5, amended: deleting an existing species that has no Animal rows
removes exactly its posts from the Post table, removes the species row,
and (absent removal failures) removes every such post's stored image file
from the upload directory; afterwards no post referencing the species
remains.  (With Animal rows present the commit fails and nothing is
deleted, per the counterexample.) -/
theorem c5_theorem (st : AppState) (i : Nat) (sp : SpeciesRow)
    (hf : st.db.species.find? (fun s => decide (s.id = i)) = some sp)
    (hanim : ∀ a ∈ st.db.animals, a.species_id ≠ sp.id) :
    (delete_species_post i [] st).state.db.posts
        = st.db.posts.filter (fun p => decide (p.species_id ≠ sp.id)) ∧
    (delete_species_post i [] st).state.db.species
        = st.db.species.filter (fun s => decide (s.id ≠ sp.id)) ∧
    (∀ p ∈ st.db.posts, p.species_id = sp.id → p.image_filename ≠ "" →
      p.image_filename ∉ (delete_species_post i [] st).state.fs) ∧
    (∀ p ∈ (delete_species_post i [] st).state.db.posts,
      p.species_id ≠ sp.id) := by
  unfold delete_species_post
  rw [hf]
  dsimp only
  have hcond :
      ¬ (st.db.animals.any (fun a => decide (a.species_id = sp.id)) = true) := by
    intro hany
    obtain ⟨a, ha, hpa⟩ := List.any_eq_true.mp hany
    exact hanim a ha (by simpa using hpa)
  rw [if_neg hcond]
  have hdb := foldl_tryRemoveImage_db
    (st.db.posts.filter (fun p => decide (p.species_id = sp.id))) [] st
  refine ⟨by rw [hdb], by rw [hdb], ?_, ?_⟩
  · intro p hp hpsid hne
    exact foldl_tryRemoveImage_not_mem _ st
      (List.mem_filter.mpr ⟨hp, by simp [hpsid]⟩) hne
  · intro p hp
    rw [hdb] at hp
    have := List.of_mem_filter hp
    simpa using this

/-- C5's witness state: one species, one post of it with a stored image,
plus an unrelated file in the upload directory. -/
def c5_state : AppState :=
  ⟨⟨[⟨1, "Sparrow"⟩], [], [],
    [⟨1, "cap", none, none, "bird_1.jpg", 10, 1, none⟩], 2, 1, 1, 2⟩,
   ["bird_1.jpg", "other.jpg"]⟩

/-- C5, witness at a concrete input. -/
theorem c5_witness :
    (delete_species_post 1 [] c5_state).state.db.posts
        = c5_state.db.posts.filter (fun p => decide (p.species_id ≠ 1)) ∧
    (delete_species_post 1 [] c5_state).state.db.species
        = c5_state.db.species.filter (fun s => decide (s.id ≠ 1)) ∧
    (∀ p ∈ c5_state.db.posts, p.species_id = 1 → p.image_filename ≠ "" →
      p.image_filename ∉ (delete_species_post 1 [] c5_state).state.fs) ∧
    (∀ p ∈ (delete_species_post 1 [] c5_state).state.db.posts,
      p.species_id ≠ 1) :=
  c5_theorem c5_state 1 ⟨1, "Sparrow"⟩ (by decide) (by decide)

/-! ## Claim C6 -/

/-- C6: a request to an editor-guarded route in a session without the
editor flag does not run the handler body — the state is returned
untouched with a redirect to `/login` whose `next` parameter is the
requested path — and a subsequent login with the correct credentials and
that `next` parameter redirects back to it with the session flag set. -/
theorem c6_theorem (sess : Session) (path : String) (st : AppState)
    (body : AppState → HResult) (eu ep p : String)
    (hsess : ¬ is_editor_logged_in sess = true) (hp : p ≠ "") :
    editor_required sess path st body =
      ⟨.redirect (url_for_login (some path)),
        [("Please log in as editor to access that page.", "warning")], st⟩ ∧
    (login_post eu ep eu ep (some p) sess).resp = .redirect p ∧
    is_editor_logged_in (login_post eu ep eu ep (some p) sess).sess = true := by
  refine ⟨?_, ?_, ?_⟩
  · unfold editor_required
    rw [if_neg hsess]
  · unfold login_post
    dsimp only
    rw [if_neg hp, if_pos ⟨rfl, rfl⟩]
  · unfold login_post
    dsimp only
    rw [if_pos ⟨rfl, rfl⟩]
    rfl

/-- C6, witness at a concrete input. -/
theorem c6_witness :
    editor_required ⟨none⟩ "/species/new" initState
        (fun s => ⟨.notFound, [], s⟩) =
      ⟨.redirect (url_for_login (some "/species/new")),
        [("Please log in as editor to access that page.", "warning")],
        initState⟩ ∧
    (login_post "editor" "password" "editor" "password"
        (some "/species/new") ⟨none⟩).resp = .redirect "/species/new" ∧
    is_editor_logged_in (login_post "editor" "password" "editor" "password"
        (some "/species/new") ⟨none⟩).sess = true :=
  c6_theorem ⟨none⟩ "/species/new" initState (fun s => ⟨.notFound, [], s⟩)
    "editor" "password" "/species/new" (by decide) (by decide)

/-! ## Claim C7 -/

/-- C7, counterexample: with the post's image file failing to be removed,
`delete_species` on a reachable state whose species owns an animal still
deletes nothing and ends in a server error instead of a redirect: the
commit fails on the animal's `NOT NULL` foreign key being nullified,
independent of the tolerated file failure — so the file failure is not
the only thing standing between the request and a completed deletion. -/
theorem c7_counterexample :
    Reachable speciesWithAnimalState ∧
    (delete_species_post 1 ["bird_20240101120000.jpg"]
        speciesWithAnimalState).resp ≠ .redirect url_for_index ∧
    (delete_species_post 1 ["bird_20240101120000.jpg"]
        speciesWithAnimalState).state.db.species
        = speciesWithAnimalState.db.species ∧
    (delete_species_post 1 ["bird_20240101120000.jpg"]
        speciesWithAnimalState).state.db.posts
        = speciesWithAnimalState.db.posts :=
  ⟨Reachable.step_new_post id "20240101120000" 10
      ⟨"cap", "", none, "", some "1", none, some ⟨"bird.jpg"⟩⟩
      (Reachable.step_create_animal 1 "Tweety"
        (Reachable.step_new_species "Sparrow" Reachable.init)),
    by decide, by decide, by decide⟩

/-- C7, amended: whatever set of image files fails to be removed
(including files that are simply absent from the upload directory),
`delete_post` still deletes the post row and redirects, and
`delete_species` on a species with no Animal rows still deletes all the
species' posts and the species row and redirects.  (On a species with
animals, `delete_species` fails at commit regardless of file-removal
failures, per the counterexample.) -/
theorem c7_theorem (st : AppState) (i j : Nat) (failSet : List String)
    (post : PostRow) (sp : SpeciesRow)
    (hf : st.db.posts.find? (fun p => decide (p.id = i)) = some post)
    (hg : st.db.species.find? (fun s => decide (s.id = j)) = some sp)
    (hanim : ∀ a ∈ st.db.animals, a.species_id ≠ sp.id) :
    (delete_post_post i failSet st).resp = .redirect url_for_index ∧
    (delete_post_post i failSet st).state.db.posts
        = st.db.posts.filter (fun p => decide (p.id ≠ post.id)) ∧
    (delete_species_post j failSet st).resp = .redirect url_for_index ∧
    (delete_species_post j failSet st).state.db.posts
        = st.db.posts.filter (fun p => decide (p.species_id ≠ sp.id)) ∧
    (delete_species_post j failSet st).state.db.species
        = st.db.species.filter (fun s => decide (s.id ≠ sp.id)) := by
  have hdb := foldl_tryRemoveImage_db
    (st.db.posts.filter (fun p => decide (p.species_id = sp.id))) failSet st
  have hcond :
      ¬ (st.db.animals.any (fun a => decide (a.species_id = sp.id)) = true) := by
    intro hany
    obtain ⟨a, ha, hpa⟩ := List.any_eq_true.mp hany
    exact hanim a ha (by simpa using hpa)
  refine ⟨?_, ?_, ?_, ?_, ?_⟩
  · unfold delete_post_post
    rw [hf]
  · unfold delete_post_post
    rw [hf]
    dsimp only
    rw [tryRemoveImage_db]
  · unfold delete_species_post
    rw [hg]
    dsimp only
    rw [if_neg hcond]
  · unfold delete_species_post
    rw [hg]
    dsimp only
    rw [if_neg hcond, hdb]
  · unfold delete_species_post
    rw [hg]
    dsimp only
    rw [if_neg hcond, hdb]

/-- C7's witness state: a post whose image file is present but whose
removal fails, and a species whose post's image is absent. -/
def c7_state : AppState :=
  ⟨⟨[⟨1, "Sparrow"⟩], [], [],
    [⟨1, "cap", none, none, "a.jpg", 10, 1, none⟩,
     ⟨2, "cap2", none, none, "gone.jpg", 11, 1, none⟩], 2, 1, 1, 3⟩,
   ["a.jpg"]⟩

/-- C7, witness at a concrete input with a failing removal. -/
theorem c7_witness :
    (delete_post_post 1 ["a.jpg"] c7_state).resp = .redirect url_for_index ∧
    (delete_post_post 1 ["a.jpg"] c7_state).state.db.posts
        = c7_state.db.posts.filter (fun p => decide (p.id ≠ 1)) ∧
    (delete_species_post 1 ["a.jpg"] c7_state).resp = .redirect url_for_index ∧
    (delete_species_post 1 ["a.jpg"] c7_state).state.db.posts
        = c7_state.db.posts.filter (fun p => decide (p.species_id ≠ 1)) ∧
    (delete_species_post 1 ["a.jpg"] c7_state).state.db.species
        = c7_state.db.species.filter (fun s => decide (s.id ≠ 1)) :=
  c7_theorem c7_state 1 1 ["a.jpg"]
    ⟨1, "cap", none, none, "a.jpg", 10, 1, none⟩ ⟨1, "Sparrow"⟩
    (by decide) (by decide) (by decide)

/-! ## Claim C8 -/

/-- C8: a POST to `/post/new` that passes the caption, species and image
checks but carries an invalid or unknown optional user id creates no Post
row, yet the uploaded image has already been written to the upload
directory under its uniquified name and stays there, and the response is
the redirect back to the form. -/
theorem c8_theorem (secfn : String → String) (tsStr : String) (now : Nat)
    (form : NewPostForm) (st : AppState) (sidI : Int) (sp : SpeciesRow)
    (hcap : pyStrip form.caption ≠ "")
    (hspt : optTruthy form.species = true)
    (himg : imageTruthy form.image = true)
    (hsid : pyInt ((form.species).getD "") = some sidI)
    (hsp : st.db.species.find? (fun s => decide ((s.id : Int) = sidI)) = some sp)
    (hfn : secfn (((form.image).map (·.filename)).getD "") ≠ "")
    (hut : optTruthy form.user_id = true)
    (huser : pyInt ((form.user_id).getD "") = none ∨
      ∃ uI, pyInt ((form.user_id).getD "") = some uI ∧
        st.db.users.find? (fun u => decide ((u.id : Int) = uI)) = none) :
    (new_post_post secfn tsStr now form st).state.db.posts = st.db.posts ∧
    uniquify (secfn (((form.image).map (·.filename)).getD "")) tsStr
        ∈ (new_post_post secfn tsStr now form st).state.fs ∧
    (new_post_post secfn tsStr now form st).resp = .redirect url_for_new_post := by
  unfold new_post_post
  have hcond : ¬ (pyStrip form.caption = "" ∨ ¬ optTruthy form.species ∨
      ¬ imageTruthy form.image) := by
    intro hor
    rcases hor with hh | hh | hh
    · exact hcap hh
    · exact hh hspt
    · exact hh himg
  rw [if_neg hcond]
  dsimp only
  rw [hsid]
  dsimp only
  rw [hsp]
  dsimp only
  rw [if_neg hfn, if_pos hut]
  rcases huser with hpn | ⟨uI, hpu, hfind⟩
  · rw [hpn]
    exact ⟨rfl, List.mem_insert_self _ _, rfl⟩
  · rw [hpu]
    dsimp only
    rw [hfind]
    exact ⟨rfl, List.mem_insert_self _ _, rfl⟩

/-- C8's witness state: one species and no users. -/
def c8_state : AppState :=
  ⟨⟨[⟨1, "Sparrow"⟩], [], [], [], 2, 1, 1, 1⟩, []⟩

/-- C8's witness form: valid caption, species and image, but a user id
that names no existing user. -/
def c8_form : NewPostForm :=
  ⟨"a bird", "", none, "", some "1", some "9", some ⟨"bird.jpg"⟩⟩

/-- C8, witness at a concrete input. -/
theorem c8_witness :
    (new_post_post id "20240101" 5 c8_form c8_state).state.db.posts
        = c8_state.db.posts ∧
    uniquify (id (((c8_form.image).map (·.filename)).getD "")) "20240101"
        ∈ (new_post_post id "20240101" 5 c8_form c8_state).state.fs ∧
    (new_post_post id "20240101" 5 c8_form c8_state).resp
        = .redirect url_for_new_post :=
  c8_theorem id "20240101" 5 c8_form c8_state 1 ⟨1, "Sparrow"⟩
    (by decide) (by decide) (by decide) (by decide) (by decide) (by decide)
    (by decide) (Or.inr ⟨9, by decide, by decide⟩)

/-! ## Claim C9 -/

theorem sorted_take50 (L : List PostRow) :
    ((sortByTimestampDesc L).take 50).Sorted
      (fun a b => b.timestamp ≤ a.timestamp) :=
  List.Pairwise.sublist (List.take_sublist 50 _) (sorted_sortByTimestampDesc L)

theorem length_take50 (L : List PostRow) :
    ((sortByTimestampDesc L).take 50).length ≤ 50 := by
  rw [List.length_take]
  exact min_le_left _ _

/-- C9: the index page's post list is sorted newest-first and holds at
most 50 posts; when the `species_id` query argument parses as an integer
the list is exactly that species' posts (all of them whenever they fit
within the limit), and when it is present but unparsable the unfiltered
newest-first list is shown. -/
theorem c9_theorem (st : AppState) (f : Option String) (sf : String)
    (sid : Int) (hsf : sf ≠ "") :
    ((index_posts f st).Sorted (fun a b => b.timestamp ≤ a.timestamp) ∧
      (index_posts f st).length ≤ 50) ∧
    (pyInt sf = some sid →
      ((∀ p ∈ index_posts (some sf) st,
          p ∈ st.db.posts ∧ (p.species_id : Int) = sid) ∧
       ((st.db.posts.filter
            (fun p => decide ((p.species_id : Int) = sid))).length ≤ 50 →
        ∀ p ∈ st.db.posts, (p.species_id : Int) = sid →
          p ∈ index_posts (some sf) st))) ∧
    (pyInt sf = none → index_posts (some sf) st = index_posts none st) := by
  refine ⟨?_, ?_, ?_⟩
  · unfold index_posts
    dsimp only
    cases f with
    | none => exact ⟨sorted_take50 _, length_take50 _⟩
    | some s =>
      dsimp only
      by_cases hs : s = ""
      · rw [if_pos hs]; exact ⟨sorted_take50 _, length_take50 _⟩
      · rw [if_neg hs]
        cases hpi : pyInt s with
        | some sid2 => exact ⟨sorted_take50 _, length_take50 _⟩
        | none => exact ⟨sorted_take50 _, length_take50 _⟩
  · intro hpy
    have hidx : index_posts (some sf) st =
        (sortByTimestampDesc (st.db.posts.filter
          (fun p => decide ((p.species_id : Int) = sid)))).take 50 := by
      unfold index_posts
      dsimp only
      rw [if_neg hsf, hpy]
    constructor
    · intro p hp
      rw [hidx] at hp
      have hp3 := mem_sortByTimestampDesc.mp ((List.take_sublist 50 _).subset hp)
      have hp4 := List.mem_filter.mp hp3
      exact ⟨hp4.1, by simpa using hp4.2⟩
    · intro hlen p hp hpsid
      rw [hidx]
      have hlen2 : (sortByTimestampDesc (st.db.posts.filter
          (fun p => decide ((p.species_id : Int) = sid)))).length ≤ 50 := by
        rw [length_sortByTimestampDesc]; exact hlen
      rw [List.take_of_length_le hlen2]
      exact mem_sortByTimestampDesc.mpr
        (List.mem_filter.mpr ⟨hp, by simpa using hpsid⟩)
  · intro hpy
    unfold index_posts
    dsimp only
    rw [if_neg hsf, hpy]

/-- C9's witness state: three posts of two species, out of order. -/
def c9_state : AppState :=
  ⟨⟨[⟨1, "Sparrow"⟩, ⟨2, "Crow"⟩], [], [],
    [⟨1, "one", none, none, "a.jpg", 5, 1, none⟩,
     ⟨2, "two", none, none, "b.jpg", 9, 2, none⟩,
     ⟨3, "three", none, none, "c.jpg", 7, 1, none⟩], 3, 1, 1, 4⟩, []⟩

/-- C9, witness at a concrete input. -/
theorem c9_witness :
    ((index_posts (some "1") c9_state).Sorted
        (fun a b => b.timestamp ≤ a.timestamp) ∧
      (index_posts (some "1") c9_state).length ≤ 50) ∧
    (pyInt "1" = some 1 →
      ((∀ p ∈ index_posts (some "1") c9_state,
          p ∈ c9_state.db.posts ∧ (p.species_id : Int) = 1) ∧
       ((c9_state.db.posts.filter
            (fun p => decide ((p.species_id : Int) = 1))).length ≤ 50 →
        ∀ p ∈ c9_state.db.posts, (p.species_id : Int) = 1 →
          p ∈ index_posts (some "1") c9_state))) ∧
    (pyInt "1" = none →
      index_posts (some "1") c9_state = index_posts none c9_state) :=
  c9_theorem c9_state (some "1") "1" 1 (by decide)

/-! ## Claim C10 -/

/-- C10: in every reachable state all stored Species, Animal and User
names are non-empty and equal to their stripped form, and each create or
edit handler rejects a name that strips to empty with a redirect and no
state change. -/
theorem c10_theorem (st : AppState) (h : Reachable st) (n b : String)
    (hn : pyStrip n = "") :
    namesOk st ∧
    ((new_species_post n st).state = st ∧
      (new_species_post n st).resp = .redirect url_for_new_species) ∧
    ((new_user_post n b st).state = st ∧
      (new_user_post n b st).resp = .redirect url_for_new_user) ∧
    (∀ i sp, st.db.species.find? (fun s => decide (s.id = i)) = some sp →
      (edit_species_post i n st).state = st ∧
      (edit_species_post i n st).resp = .redirect (url_for_edit_species sp.id)) ∧
    (∀ i a, st.db.animals.find? (fun x => decide (x.id = i)) = some a →
      (edit_animal_post i n st).state = st ∧
      (edit_animal_post i n st).resp = .redirect (url_for_edit_animal a.id)) ∧
    (∀ i sp, st.db.species.find? (fun s => decide (s.id = i)) = some sp →
      (create_animal_post i n st).state = st ∧
      (create_animal_post i n st).resp =
        .redirect (url_for_species_profile sp.id)) := by
  refine ⟨(reachable_inv h).2, ?_, ?_, ?_, ?_, ?_⟩
  · unfold new_species_post
    rw [if_pos hn]
    exact ⟨rfl, rfl⟩
  · unfold new_user_post
    dsimp only
    rw [if_pos hn]
    exact ⟨rfl, rfl⟩
  · intro i sp hf
    unfold edit_species_post
    rw [hf]
    dsimp only
    rw [if_pos hn]
    exact ⟨rfl, rfl⟩
  · intro i a hf
    unfold edit_animal_post
    rw [hf]
    dsimp only
    rw [if_pos hn]
    exact ⟨rfl, rfl⟩
  · intro i sp hf
    unfold create_animal_post
    rw [hf]
    dsimp only
    rw [if_pos hn]
    exact ⟨rfl, rfl⟩

/-- C10, witness at a concrete reachable state and a whitespace name. -/
theorem c10_witness :
    namesOk (new_species_post "Sparrow" initState).state ∧
    ((new_species_post "  " (new_species_post "Sparrow" initState).state).state
        = (new_species_post "Sparrow" initState).state ∧
      (new_species_post "  " (new_species_post "Sparrow" initState).state).resp
        = .redirect url_for_new_species) ∧
    ((new_user_post "  " "bio" (new_species_post "Sparrow" initState).state).state
        = (new_species_post "Sparrow" initState).state ∧
      (new_user_post "  " "bio" (new_species_post "Sparrow" initState).state).resp
        = .redirect url_for_new_user) ∧
    (∀ i sp, (new_species_post "Sparrow" initState).state.db.species.find?
          (fun s => decide (s.id = i)) = some sp →
      (edit_species_post i "  " (new_species_post "Sparrow" initState).state).state
          = (new_species_post "Sparrow" initState).state ∧
      (edit_species_post i "  " (new_species_post "Sparrow" initState).state).resp
          = .redirect (url_for_edit_species sp.id)) ∧
    (∀ i a, (new_species_post "Sparrow" initState).state.db.animals.find?
          (fun x => decide (x.id = i)) = some a →
      (edit_animal_post i "  " (new_species_post "Sparrow" initState).state).state
          = (new_species_post "Sparrow" initState).state ∧
      (edit_animal_post i "  " (new_species_post "Sparrow" initState).state).resp
          = .redirect (url_for_edit_animal a.id)) ∧
    (∀ i sp, (new_species_post "Sparrow" initState).state.db.species.find?
          (fun s => decide (s.id = i)) = some sp →
      (create_animal_post i "  " (new_species_post "Sparrow" initState).state).state
          = (new_species_post "Sparrow" initState).state ∧
      (create_animal_post i "  " (new_species_post "Sparrow" initState).state).resp
          = .redirect (url_for_species_profile sp.id)) :=
  c10_theorem (new_species_post "Sparrow" initState).state
    (Reachable.step_new_species "Sparrow" Reachable.init) "  " "bio" (by decide)

end BirdBlog
